import Mathlib

/-!
Verification of the PDF annotation tool core (src/main.py) against its
natural-language specification.

The Python source is shallowly embedded: floating-point coordinates become
rationals (`ℚ`), Python lists become `List`, Python dict records become
structures, and fallible operations return `Option`.  Each definition below
is a direct translation of the function of `src/main.py` it is named after;
definitions whose doc comment says "Spec:" are instead written from the
specification's words, for comparison against the source-side definition.
-/

/-- A rectangle `(x0, y0, x1, y1)`, the shape of the 4-element `bbox_pdf`
lists of the source.  No min/max ordering is enforced, matching the source. -/
structure Rect where
  x0 : ℚ
  y0 : ℚ
  x1 : ℚ
  y1 : ℚ
deriving DecidableEq

/-- One annotation record, the dict
`{"page": ..., "bbox_pdf": ..., "label": ..., "text": ...}` of the source. -/
structure Annotation where
  page : ℕ
  bbox : Rect
  label : String
  text : String
deriving DecidableEq

/-- The label catalog `LABEL_OPTIONS` (src/main.py line 14). -/
def LABEL_OPTIONS : List String := ["TITLE", "H1", "H2", "H3", "H4", "BODY"]

/-- The catalog-position map `LABEL_MAP` (src/main.py line 15):
`{name: idx+1 for idx, name in enumerate(LABEL_OPTIONS)}`.  For a name in
the catalog this is its 1-based position. -/
def LABEL_MAP (name : String) : ℕ := LABEL_OPTIONS.indexOf name + 1

/-- Python's `str.strip()`: drop leading and trailing whitespace.  Modelled
on the character list of the string (Lean's builtin `String.trim` is
byte-position based and does not reduce in the kernel). -/
def pyStrip (s : String) : String :=
  String.mk (((s.data.dropWhile Char.isWhitespace).reverse.dropWhile
      Char.isWhitespace).reverse)

/-! ## Box Edit State Machine: committing a drawn rectangle (C3)

`on_mouse_up` (src/main.py lines 184-199), branch for the `Drawing` state
(`self.temp_rect` is set): the dragged-out pixel rectangle
`(x0, y0, x1, y1)` is committed as a new annotation iff
`abs(x1 - x0) > 10 and abs(y1 - y0) > 10`, with `bbox_pdf` the pixel
coordinates divided by the zoom, the currently selected label, and empty
text; otherwise the annotation list is unchanged. -/

/-- `on_mouse_up` in the `Drawing` state (src/main.py lines 190-199). -/
def on_mouse_up_drawing (current_page : ℕ) (zoom : ℚ) (label : String)
    (anns : List Annotation) (x0 y0 x1 y1 : ℚ) : List Annotation :=
  if |x1 - x0| > 10 ∧ |y1 - y0| > 10 then
    anns ++ [⟨current_page, ⟨x0 / zoom, y0 / zoom, x1 / zoom, y1 / zoom⟩, label, ""⟩]
  else
    anns

/-- C3: ending the `Drawing` state commits a new annotation iff the dragged
rectangle's pixel width and height both exceed 10; the committed record has
the current page, the selected label, empty text and `bbox_doc` equal to the
pixel rectangle divided element-wise by the zoom; a smaller rectangle leaves
the store unchanged; at zoom 1 the committed `bbox_doc` equals the pixel
rectangle (in particular a 50-by-50 box commits and a 5-by-5 box does not). -/
theorem on_mouse_up_commit_spec (current_page : ℕ) (zoom : ℚ) (label : String)
    (anns : List Annotation) (x0 y0 x1 y1 : ℚ) :
    ((|x1 - x0| > 10 ∧ |y1 - y0| > 10) →
      on_mouse_up_drawing current_page zoom label anns x0 y0 x1 y1 =
        anns ++ [⟨current_page, ⟨x0 / zoom, y0 / zoom, x1 / zoom, y1 / zoom⟩,
          label, ""⟩]) ∧
    (¬ (|x1 - x0| > 10 ∧ |y1 - y0| > 10) →
      on_mouse_up_drawing current_page zoom label anns x0 y0 x1 y1 = anns) ∧
    (zoom = 1 → (|x1 - x0| > 10 ∧ |y1 - y0| > 10) →
      on_mouse_up_drawing current_page zoom label anns x0 y0 x1 y1 =
        anns ++ [⟨current_page, ⟨x0, y0, x1, y1⟩, label, ""⟩]) ∧
    on_mouse_up_drawing 0 1 "TITLE" [] 0 0 50 50 =
      [⟨0, ⟨0, 0, 50, 50⟩, "TITLE", ""⟩] ∧
    on_mouse_up_drawing 0 1 "TITLE" [] 0 0 5 5 = [] := by
  refine ⟨fun h => ?_, fun h => ?_, fun hz h => ?_, ?_, ?_⟩
  · simp [on_mouse_up_drawing, h]
  · simp [on_mouse_up_drawing, h]
  · subst hz
    simp [on_mouse_up_drawing, h]
  · norm_num [on_mouse_up_drawing]
  · norm_num [on_mouse_up_drawing]

/-! ## Heading Auto-Detector (C5)

`auto_detect_headings` (src/main.py lines 297-320).  The page's text layout
is a sequence of spans (the nested block/line/span loops flattened, in
iteration order), each with a font size, a text and a bounding rectangle. -/

/-- One text span of the page layout, an element of
`page.get_text("dict")` with its `size`, `text` and `bbox` fields. -/
structure Span where
  size : ℚ
  text : String
  bbox : Rect

/-- The font-size classification of `auto_detect_headings`
(src/main.py lines 311-317): `label = "BODY"`, overridden to `TITLE` when
`size > 18`, else `H1` when `size > 14`, else `H2` when `size > 12`. -/
def classify (size : ℚ) : String :=
  if size > 18 then "TITLE"
  else if size > 14 then "H1"
  else if size > 12 then "H2"
  else "BODY"

/-- The per-span body of `auto_detect_headings`
(src/main.py lines 307-318): trim the span text, and when its length
exceeds 2, produce the detected annotation on the current page. -/
def detectSpan (current_page : ℕ) (s : Span) : Option Annotation :=
  let t := pyStrip s.text
  if 2 < t.length then some ⟨current_page, s.bbox, classify s.size, t⟩ else none

/-- `auto_detect_headings` (src/main.py lines 297-320): the detected list is
appended to the existing annotations via `self.annotations.extend(detected)`. -/
def auto_detect_headings (current_page : ℕ) (spans : List Span)
    (anns : List Annotation) : List Annotation :=
  anns ++ spans.filterMap (detectSpan current_page)

/-- Demonstration spans of sizes 20, 16, 13, 10, each with text longer than
2 characters, for the example of the specification. -/
def demoSpans : List Span :=
  [⟨20, "Alpha", ⟨0, 0, 1, 1⟩⟩, ⟨16, "Beta", ⟨0, 2, 1, 3⟩⟩,
   ⟨13, "Gamma", ⟨0, 4, 1, 5⟩⟩, ⟨10, "Delta", ⟨0, 6, 1, 7⟩⟩]

/-- C5: auto-detection appends, for each span in order with trimmed length
above 2, exactly one annotation labelled by the size thresholds, with the
span's rectangle and trimmed text; shorter spans produce nothing; H3/H4 are
never produced; existing annotations are untouched; and sizes
[20, 16, 13, 10] yield labels [TITLE, H1, H2, BODY] in order. -/
theorem auto_detect_headings_spec (current_page : ℕ) (spans : List Span)
    (anns : List Annotation) :
    auto_detect_headings current_page spans anns =
      anns ++ (spans.filter (fun s => 2 < (pyStrip s.text).length)).map
        (fun s => ⟨current_page, s.bbox, classify s.size, pyStrip s.text⟩) ∧
    (∀ size : ℚ, classify size ≠ "H3" ∧ classify size ≠ "H4") ∧
    (auto_detect_headings current_page spans anns).take anns.length = anns ∧
    (auto_detect_headings 0 demoSpans []).map (fun a => a.label) =
      ["TITLE", "H1", "H2", "BODY"] := by
  refine ⟨?_, ?_, ?_, ?_⟩
  · unfold auto_detect_headings
    congr 1
    induction spans with
    | nil => rfl
    | cons s rest ih =>
      by_cases h : 2 < (pyStrip s.text).length
      · simp [detectSpan, h, ih]
      · simp [detectSpan, h, ih]
  · intro size
    unfold classify
    split_ifs <;> exact ⟨by decide, by decide⟩
  · unfold auto_detect_headings
    simp
  · decide

/-! ## Box Edit State Machine: resizing (C7)

`on_mouse_drag` (src/main.py lines 164-172), `Resizing` branch: the selected
box's document rectangle is scaled to pixels, the edges selected by the
grabbed handle are moved to the pointer, and the result is divided back by
the zoom. -/

/-- The `Resizing` branch of `on_mouse_drag` (src/main.py lines 165-171). -/
def on_mouse_drag_resize (zoom : ℚ) (handle : ℕ) (ex ey : ℚ) (b : Rect) :
    Rect :=
  let px0 := b.x0 * zoom
  let py0 := b.y0 * zoom
  let px1 := b.x1 * zoom
  let py1 := b.y1 * zoom
  let px0 := if handle ∈ [0, 4, 6] then ex else px0
  let px1 := if handle ∈ [1, 5, 7] then ex else px1
  let py0 := if handle ∈ [0, 1, 4, 5] then ey else py0
  let py1 := if handle ∈ [2, 3, 6, 7] then ey else py1
  ⟨px0 / zoom, py0 / zoom, px1 / zoom, py1 / zoom⟩

/-- C7: a pointer move in the `Resizing` state with handle 0 (top-left)
changes only the `x0`/`y0` components of the selected box (they become the
pointer position divided by the zoom); the opposite corner `(x1, y1)` is
unchanged. -/
theorem resize_handle0_frame (zoom : ℚ) (hz : zoom ≠ 0) (ex ey : ℚ)
    (b : Rect) :
    (on_mouse_drag_resize zoom 0 ex ey b).x1 = b.x1 ∧
    (on_mouse_drag_resize zoom 0 ex ey b).y1 = b.y1 ∧
    (on_mouse_drag_resize zoom 0 ex ey b).x0 = ex / zoom ∧
    (on_mouse_drag_resize zoom 0 ex ey b).y0 = ey / zoom := by
  unfold on_mouse_drag_resize
  refine ⟨?_, ?_, by norm_num, by norm_num⟩
  · simp [mul_div_cancel_right₀ _ hz]
  · simp [mul_div_cancel_right₀ _ hz]

/-- Witness for C7 at zoom 3/2 and a concrete box. -/
theorem resize_handle0_frame_witness :
    (on_mouse_drag_resize (3 / 2) 0 7 8 ⟨1, 2, 3, 4⟩).x1 = 3 ∧
    (on_mouse_drag_resize (3 / 2) 0 7 8 ⟨1, 2, 3, 4⟩).y1 = 4 ∧
    (on_mouse_drag_resize (3 / 2) 0 7 8 ⟨1, 2, 3, 4⟩).x0 = 7 / (3 / 2) ∧
    (on_mouse_drag_resize (3 / 2) 0 7 8 ⟨1, 2, 3, 4⟩).y0 = 8 / (3 / 2) :=
  resize_handle0_frame (3 / 2) (by norm_num) 7 8 ⟨1, 2, 3, 4⟩

/-! ## Application state: selection across document/page switches (C8)

The mutable fields of `PDFAnnotationApp` that `open_pdf`
(src/main.py lines 102-110), `prev_page`/`next_page` (lines 216-224) and
`load_annotations` (lines 288-295) interact with.  `selected_box` models the
Python reference `self.selected_box` (`None` or one annotation record);
being a single optional reference, at most one annotation is ever selected. -/

structure AppState where
  current_page : ℕ
  num_pages : ℕ
  annotations : List Annotation
  selected_box : Option Annotation
deriving DecidableEq

/-- `next_page` (src/main.py lines 221-224): advance the page when not on
the last page.  No other field is assigned. -/
def next_page (s : AppState) : AppState :=
  if s.current_page < s.num_pages - 1 then
    { s with current_page := s.current_page + 1 }
  else s

/-- `prev_page` (src/main.py lines 216-219). -/
def prev_page (s : AppState) : AppState :=
  if 0 < s.current_page then { s with current_page := s.current_page - 1 }
  else s

/-- `open_pdf` (src/main.py lines 102-110) composed with `load_annotations`
(lines 288-295): reset to page 0 of the newly opened document and replace
the annotation list with the sidecar content (empty when the sidecar file is
missing).  `self.selected_box` is never assigned in either function. -/
def open_pdf (s : AppState) (newNumPages : ℕ)
    (sidecar : Option (List Annotation)) : AppState :=
  { s with current_page := 0, num_pages := newNumPages,
           annotations := sidecar.getD [] }

/-- A concrete selected annotation for the C8 counterexample. -/
def selAnn : Annotation := ⟨0, ⟨0, 0, 50, 50⟩, "TITLE", ""⟩

/-- A concrete state on page 0 of a 2-page document with a live selection. -/
def selState : AppState := ⟨0, 2, [selAnn], some selAnn⟩

/-- C8 counterexample: from a state with a selection, `next_page` performs a
genuine page switch and `open_pdf` a genuine document switch, yet in both
resulting states the selection is still set — the claim that every
document/page switch clears the selection is false of the code. -/
theorem switch_keeps_selection_counterexample :
    (next_page selState).current_page = 1 ∧
    (next_page selState).selected_box = some selAnn ∧
    (open_pdf selState 3 none).selected_box = some selAnn ∧
    (prev_page (next_page selState)).selected_box = some selAnn := by
  refine ⟨?_, ?_, ?_, ?_⟩ <;> decide

/-- C8 amended: at most one annotation is selected at a time (the selection
is one optional reference), but document switches (`open_pdf`) and page
switches (`prev_page`/`next_page`) leave the selection unchanged rather
than clearing it. -/
theorem switch_selection_amended (s : AppState) (newNumPages : ℕ)
    (sidecar : Option (List Annotation)) :
    (s.selected_box.toList.length ≤ 1) ∧
    (next_page s).selected_box = s.selected_box ∧
    (prev_page s).selected_box = s.selected_box ∧
    (open_pdf s newNumPages sidecar).selected_box = s.selected_box := by
  refine ⟨?_, ?_, ?_, rfl⟩
  · cases s.selected_box <;> simp
  · unfold next_page
    split <;> rfl
  · unfold prev_page
    split <;> rfl

/-! ## Annotation removal (C9)

`delete_selected` (src/main.py lines 210-214) removes the selected record
with Python's `list.remove`, which deletes the first element comparing equal
and raises `ValueError` when no element does.  `none` models the raised
error. -/

/-- Python `list.remove` on the annotation list: `some` of the list with the
first matching element deleted, or `none` (a `ValueError`) when no element
equals the argument. -/
def listRemove (xs : List Annotation) (a : Annotation) :
    Option (List Annotation) :=
  match xs with
  | [] => none
  | x :: rest =>
    if x = a then some rest else (listRemove rest a).map (fun l => x :: l)

/-- `delete_selected` (src/main.py lines 210-214): with a selection, remove
it from the store and clear the selection; the error of `list.remove`
propagates as `none`. -/
def delete_selected (s : AppState) : Option AppState :=
  match s.selected_box with
  | none => some s
  | some a => (listRemove s.annotations a).map
      (fun l => { s with annotations := l, selected_box := none })

/-- A second annotation, not equal to `selAnn`, for the C9 counterexample. -/
def otherAnn : Annotation := ⟨0, ⟨0, 0, 50, 50⟩, "H1", ""⟩

/-- C9 counterexample: removing an annotation that is not a member of the
store is not a no-op — `list.remove` raises (`none`), so the claim that it
silently leaves the sequence unchanged is false of the code. -/
theorem remove_nonmember_counterexample :
    otherAnn ∉ [selAnn] ∧ listRemove [selAnn] otherAnn = none := by
  refine ⟨by decide, by decide⟩

/-- C9 amended: removing a record that is not a member of the store raises
an error (Python `ValueError`, modelled as `none`) instead of being a no-op;
no modified store is produced, so the sequence itself is not changed. -/
theorem remove_nonmember_amended (xs : List Annotation) (a : Annotation)
    (h : a ∉ xs) : listRemove xs a = none := by
  induction xs with
  | nil => rfl
  | cons x rest ih =>
    have hxa : ¬ x = a := fun hx => h (hx ▸ List.mem_cons_self x rest)
    have hrest : a ∉ rest := fun hr => h (List.mem_cons_of_mem x hr)
    simp [listRemove, hxa, ih hrest]

/-- Witness for the amended C9 at a concrete store and non-member. -/
theorem remove_nonmember_amended_witness : listRemove [selAnn] otherAnn = none :=
  remove_nonmember_amended [selAnn] otherAnn (by decide)

/-! ## Right-click selection (C10)

`select_box` (src/main.py lines 201-208): iterate the annotations in store
order; the first one whose zoom-scaled box contains the click point and
whose page is the current page becomes selected (`break`); when none
matches, the loop falls through and neither the selection nor the
annotation list is assigned. -/

/-- The hit test of the `select_box` loop body (src/main.py line 204). -/
def hitTest (zoom : ℚ) (current_page : ℕ) (ex ey : ℚ) (a : Annotation) :
    Bool :=
  decide (a.bbox.x0 * zoom ≤ ex ∧ ex ≤ a.bbox.x1 * zoom ∧
    a.bbox.y0 * zoom ≤ ey ∧ ey ≤ a.bbox.y1 * zoom ∧ a.page = current_page)

/-- `select_box` (src/main.py lines 201-208), returning the new selection
and the (untouched) annotation list. -/
def select_box (zoom : ℚ) (current_page : ℕ) (ex ey : ℚ)
    (anns : List Annotation) (sel : Option Annotation) :
    Option Annotation × List Annotation :=
  match anns.find? (hitTest zoom current_page ex ey) with
  | some a => (some a, anns)
  | none => (sel, anns)

/-- C10: right-clicking at a point contained in no annotation's scaled box
on the current page leaves both the selection and the annotation store
unchanged — in particular an existing selection is never cleared by
right-clicking empty space. -/
theorem select_box_miss_frame (zoom : ℚ) (current_page : ℕ) (ex ey : ℚ)
    (anns : List Annotation) (sel : Option Annotation)
    (h : ∀ a ∈ anns, a.page = current_page →
      ¬ (a.bbox.x0 * zoom ≤ ex ∧ ex ≤ a.bbox.x1 * zoom ∧
         a.bbox.y0 * zoom ≤ ey ∧ ey ≤ a.bbox.y1 * zoom)) :
    select_box zoom current_page ex ey anns sel = (sel, anns) := by
  have hnone : anns.find? (hitTest zoom current_page ex ey) = none := by
    rw [List.find?_eq_none]
    intro a ha
    simp only [hitTest, decide_eq_true_eq]
    rintro ⟨h1, h2, h3, h4, h5⟩
    exact h a ha h5 ⟨h1, h2, h3, h4⟩
  simp [select_box, hnone]

/-- Witness for C10: clicking at (80, 5) misses the only annotation (a
50-by-50 box at zoom 1 on the current page) and leaves the selection and
store unchanged. -/
theorem select_box_miss_frame_witness :
    select_box 1 0 80 5 [selAnn] (some selAnn) = (some selAnn, [selAnn]) :=
  select_box_miss_frame 1 0 80 5 [selAnn] (some selAnn) (by
    intro a ha hp
    simp only [List.mem_singleton] at ha
    subst ha
    norm_num [selAnn])

/-! ## Annotation Store: save and load (C4)

`save_annotations` (src/main.py lines 275-286) first backfills `text` via
the Text Extractor for every annotation whose `page` indexes into the open
document, then serialises the full ordered list to the sidecar file.
`load_annotations` (lines 288-295) parses the sidecar back, or yields the
empty list when the file is missing.  The sidecar is modelled as the stored
annotation sequence itself (`json.dump`/`json.load` of these records is a
faithful round trip), and the Text Extractor as an abstract function from a
page index and rectangle to the extracted text. -/

/-- `save_annotations` (src/main.py lines 275-286): the list that is both
left in memory and written to the sidecar.  `textOf` abstracts
`extract_text_precise` applied to the document's pages. -/
def save_annotations (numPages : ℕ) (textOf : ℕ → Rect → String)
    (anns : List Annotation) : List Annotation :=
  anns.map (fun a =>
    if a.page < numPages then { a with text := textOf a.page a.bbox } else a)

/-- `load_annotations` (src/main.py lines 288-295): the sidecar content when
the file exists, the empty list otherwise. -/
def load_annotations (sidecar : Option (List Annotation)) : List Annotation :=
  sidecar.getD []

/-- A throwaway default record for positional indexing in C4. -/
def arbAnn : Annotation := ⟨0, ⟨0, 0, 0, 0⟩, "BODY", ""⟩

/-- C4: saving and then loading the same document yields exactly the saved
sequence; it has the same length and order as the in-memory sequence and
agrees with it on `page`, `bbox` and `label` at every position, while `text`
is populated by the save (via the Text Extractor) exactly at the positions
whose `page` is a valid index into the document. -/
theorem save_load_roundtrip (numPages : ℕ) (textOf : ℕ → Rect → String)
    (anns : List Annotation) :
    load_annotations (some (save_annotations numPages textOf anns)) =
      save_annotations numPages textOf anns ∧
    (save_annotations numPages textOf anns).length = anns.length ∧
    (∀ i, i < anns.length →
      ((save_annotations numPages textOf anns).getD i arbAnn).page =
          (anns.getD i arbAnn).page ∧
      ((save_annotations numPages textOf anns).getD i arbAnn).bbox =
          (anns.getD i arbAnn).bbox ∧
      ((save_annotations numPages textOf anns).getD i arbAnn).label =
          (anns.getD i arbAnn).label ∧
      ((save_annotations numPages textOf anns).getD i arbAnn).text =
        (if (anns.getD i arbAnn).page < numPages then
          textOf (anns.getD i arbAnn).page (anns.getD i arbAnn).bbox
         else (anns.getD i arbAnn).text)) := by
  refine ⟨rfl, by simp [save_annotations], ?_⟩
  intro i hi
  have hgd : (save_annotations numPages textOf anns).getD i arbAnn =
      (fun a => if a.page < numPages then
        { a with text := textOf a.page a.bbox } else a) (anns.getD i arbAnn) := by
    unfold save_annotations
    rw [List.getD_eq_getElem?_getD, List.getElem?_map,
      List.getD_eq_getElem?_getD]
    rcases List.getElem?_eq_getElem (l := anns) (n := i) hi with h
    rw [h]
    rfl
  rw [hgd]
  dsimp only
  split_ifs with hp <;> exact ⟨rfl, rfl, rfl, rfl⟩

/-- A fixed extractor and store for the C4 witness. -/
def demoTextOf : ℕ → Rect → String := fun _ _ => "T"

/-- Witness for C4 at a concrete one-page document whose store holds one
annotation on page 0 and one on the out-of-range page 7. -/
theorem save_load_roundtrip_witness :
    load_annotations
        (some (save_annotations 1 demoTextOf [selAnn, { otherAnn with page := 7 }])) =
      save_annotations 1 demoTextOf [selAnn, { otherAnn with page := 7 }] ∧
    ((save_annotations 1 demoTextOf [selAnn, { otherAnn with page := 7 }]).getD 0
        arbAnn).text = "T" := by
  have h := save_load_roundtrip 1 demoTextOf [selAnn, { otherAnn with page := 7 }]
  refine ⟨h.1, ?_⟩
  have h0 := (h.2.2 0 (by decide)).2.2.2
  simpa [selAnn, arbAnn, demoTextOf] using h0

/-! ## Dataset Exporters: shared data (C1, C2)

A folder of documents as the exporters see it (src/main.py lines 322-387):
for each PDF (in the `self.pdf_files` order), its base name, the pixel size
of each page's default-zoom pixmap (`page.get_pixmap()`), and the content of
its annotation sidecar (empty when the file is missing). -/

/-- The pixel dimensions of one page's rendered pixmap. -/
structure PageInfo where
  width : ℕ
  height : ℕ

/-- One document of the export folder. -/
structure Document where
  baseName : String
  pages : List PageInfo
  sidecar : List Annotation

/-- A COCO `images` entry (src/main.py line 341). -/
structure CocoImage where
  id : ℕ
  file_name : String
  width : ℕ
  height : ℕ
deriving DecidableEq

/-- A COCO `annotations` entry (src/main.py lines 346-352). -/
structure CocoAnn where
  id : ℕ
  image_id : ℕ
  bbox : List ℚ
  category_id : ℕ
  iscrowd : ℕ
deriving DecidableEq

/-- A COCO `categories` entry (src/main.py line 327). -/
structure CocoCat where
  id : ℕ
  name : String
deriving DecidableEq

/-- The COCO export object (src/main.py line 323). -/
structure Coco where
  images : List CocoImage
  annotations : List CocoAnn
  categories : List CocoCat
deriving DecidableEq

/-- The exported image file name `{base}_page_{pageIdx+1}.jpg`
(src/main.py line 338). -/
def imgFileName (baseName : String) (pageIdx : ℕ) : String :=
  baseName ++ "_page_" ++ toString (pageIdx + 1) ++ ".jpg"

/-- The COCO annotation record built at src/main.py lines 344-352:
`bbox = [x0, y0, x1 - x0, y1 - y0]` taken directly from `bbox_pdf`,
`category_id = LABEL_MAP[label]`, `iscrowd = 0`. -/
def mkCocoAnn (annId imgId : ℕ) (a : Annotation) : CocoAnn :=
  ⟨annId, imgId,
   [a.bbox.x0, a.bbox.y0, a.bbox.x1 - a.bbox.x0, a.bbox.y1 - a.bbox.y0],
   LABEL_MAP a.label, 0⟩

/-- The inner `for ann in annotations` loop of `export_coco`
(src/main.py lines 342-353): emit one record per annotation whose page
equals the current page index, incrementing `ann_id` at each emission;
returns the emitted records and the final `ann_id`. -/
def cocoAnnLoop (imgId pageIdx annId : ℕ) (anns : List Annotation) :
    List CocoAnn × ℕ :=
  match anns with
  | [] => ([], annId)
  | a :: rest =>
    if a.page = pageIdx then
      let r := cocoAnnLoop imgId pageIdx (annId + 1) rest
      (mkCocoAnn annId imgId a :: r.1, r.2)
    else cocoAnnLoop imgId pageIdx annId rest

/-- The `for page_idx, page in enumerate(doc)` loop of `export_coco`
(src/main.py lines 336-354): per page, one image entry (then `img_id += 1`)
and the page's annotation records; returns the image entries, the
annotation records, and the final `img_id` and `ann_id`. -/
def cocoPageLoop (baseName : String) (anns : List Annotation)
    (pageIdx imgId annId : ℕ) (pages : List PageInfo) :
    List CocoImage × List CocoAnn × ℕ × ℕ :=
  match pages with
  | [] => ([], [], imgId, annId)
  | p :: rest =>
    let r1 := cocoAnnLoop imgId pageIdx annId anns
    let r2 := cocoPageLoop baseName anns (pageIdx + 1) (imgId + 1) r1.2 rest
    (⟨imgId, imgFileName baseName pageIdx, p.width, p.height⟩ :: r2.1,
     r1.1 ++ r2.2.1, r2.2.2)

/-- The `for pdf in self.pdf_files` loop of `export_coco`
(src/main.py lines 328-354). -/
def cocoDocLoop (imgId annId : ℕ) (docs : List Document) :
    List CocoImage × List CocoAnn × ℕ × ℕ :=
  match docs with
  | [] => ([], [], imgId, annId)
  | d :: rest =>
    let r1 := cocoPageLoop d.baseName d.sidecar 0 imgId annId d.pages
    let r2 := cocoDocLoop r1.2.2.1 r1.2.2.2 rest
    (r1.1 ++ r2.1, r1.2.1 ++ r2.2.1, r2.2.2)

/-- `export_coco` (src/main.py lines 322-357): categories from the
insertion-ordered `LABEL_MAP.items()`, then the document loop with both
counters starting at 1. -/
def export_coco (docs : List Document) : Coco :=
  ⟨(cocoDocLoop 1 1 docs).1, (cocoDocLoop 1 1 docs).2.1,
   (List.enum LABEL_OPTIONS).map (fun p => ⟨p.1 + 1, p.2⟩)⟩

/-! Spec-side reference definitions for the COCO exporter, written from the
specification's words: pages are listed in document-then-page order; image
IDs are assigned sequentially from a starting value along that list;
annotation records are the matching sidecar entries of each page, paired
with that page's image ID, with their own IDs assigned sequentially; the
categories are the catalog entries with 1-based IDs. -/

/-- Spec: one rendered page in the document-then-page enumeration — the
owning document's base name and sidecar, the page's index within its
document, and its pixel size. -/
structure PageCtx where
  baseName : String
  pageIdx : ℕ
  page : PageInfo
  anns : List Annotation

/-- Spec: the pages of one document, in page order, with page indices
counted from `k`. -/
def pageCtxsFrom (baseName : String) (anns : List Annotation) (k : ℕ)
    (pages : List PageInfo) : List PageCtx :=
  (List.enumFrom k pages).map (fun p => ⟨baseName, p.1, p.2, anns⟩)

/-- Spec: all rendered pages of the folder in document-then-page order. -/
def pageCtxs (docs : List Document) : List PageCtx :=
  docs.flatMap (fun d => pageCtxsFrom d.baseName d.sidecar 0 d.pages)

/-- Spec: the image entries for a page list, with IDs assigned sequentially
starting at `k` along the list. -/
def cocoImagesSpec (k : ℕ) (l : List PageCtx) : List CocoImage :=
  (List.enumFrom k l).map
    (fun e => ⟨e.1, imgFileName e.2.baseName e.2.pageIdx,
      e.2.page.width, e.2.page.height⟩)

/-- Spec: the (image ID, annotation) pairs of the export: for each page (its
image ID assigned sequentially from `k`), the sidecar annotations whose
`page` field equals the page's index, in sidecar order. -/
def cocoAnnPairs (k : ℕ) (l : List PageCtx) : List (ℕ × Annotation) :=
  (List.enumFrom k l).flatMap
    (fun e => (e.2.anns.filter (fun a => decide (a.page = e.2.pageIdx))).map
      (fun a => (e.1, a)))

/-- Spec: the annotation records, their own IDs assigned sequentially
starting at `j` across the whole pair list. -/
def cocoAnnsSpec (j : ℕ) (ps : List (ℕ × Annotation)) : List CocoAnn :=
  (List.enumFrom j ps).map (fun e => mkCocoAnn e.1 e.2.1 e.2.2)

/-- Spec: one (id, name) category entry per Label Catalog entry with
1-based IDs, regardless of whether the label is used. -/
def cocoCategoriesSpec : List CocoCat :=
  (List.enumFrom 1 LABEL_OPTIONS).map (fun p => ⟨p.1, p.2⟩)

/-- Spec: the number of exported annotation records of a page list. -/
def annCount (l : List PageCtx) : ℕ :=
  (l.map (fun c =>
    (c.anns.filter (fun a => decide (a.page = c.pageIdx))).length)).sum

theorem cocoAnnsSpec_cons (j : ℕ) (p : ℕ × Annotation)
    (ps : List (ℕ × Annotation)) :
    cocoAnnsSpec j (p :: ps) = mkCocoAnn j p.1 p.2 :: cocoAnnsSpec (j + 1) ps := by
  simp [cocoAnnsSpec, List.enumFrom_cons]

theorem cocoAnnsSpec_append (j : ℕ) (ps qs : List (ℕ × Annotation)) :
    cocoAnnsSpec j (ps ++ qs) =
      cocoAnnsSpec j ps ++ cocoAnnsSpec (j + ps.length) qs := by
  simp [cocoAnnsSpec, List.enumFrom_append]

theorem cocoImagesSpec_cons (k : ℕ) (c : PageCtx) (l : List PageCtx) :
    cocoImagesSpec k (c :: l) =
      ⟨k, imgFileName c.baseName c.pageIdx, c.page.width, c.page.height⟩ ::
        cocoImagesSpec (k + 1) l := by
  simp [cocoImagesSpec, List.enumFrom_cons]

theorem cocoImagesSpec_append (k : ℕ) (l1 l2 : List PageCtx) :
    cocoImagesSpec k (l1 ++ l2) =
      cocoImagesSpec k l1 ++ cocoImagesSpec (k + l1.length) l2 := by
  simp [cocoImagesSpec, List.enumFrom_append]

theorem cocoAnnPairs_cons (k : ℕ) (c : PageCtx) (l : List PageCtx) :
    cocoAnnPairs k (c :: l) =
      (c.anns.filter (fun a => decide (a.page = c.pageIdx))).map
        (fun a => (k, a)) ++ cocoAnnPairs (k + 1) l := by
  simp [cocoAnnPairs, List.enumFrom_cons]

theorem cocoAnnPairs_append (k : ℕ) (l1 l2 : List PageCtx) :
    cocoAnnPairs k (l1 ++ l2) =
      cocoAnnPairs k l1 ++ cocoAnnPairs (k + l1.length) l2 := by
  simp [cocoAnnPairs, List.enumFrom_append, List.flatMap_append]

theorem cocoAnnPairs_length (k : ℕ) (l : List PageCtx) :
    (cocoAnnPairs k l).length = annCount l := by
  induction l generalizing k with
  | nil => rfl
  | cons c rest ih => simp [cocoAnnPairs_cons, annCount, ih]

theorem annCount_cons (c : PageCtx) (l : List PageCtx) :
    annCount (c :: l) =
      (c.anns.filter (fun a => decide (a.page = c.pageIdx))).length +
        annCount l := by
  simp [annCount]

theorem annCount_append (l1 l2 : List PageCtx) :
    annCount (l1 ++ l2) = annCount l1 + annCount l2 := by
  simp [annCount]

theorem pageCtxsFrom_cons (baseName : String) (anns : List Annotation)
    (k : ℕ) (p : PageInfo) (rest : List PageInfo) :
    pageCtxsFrom baseName anns k (p :: rest) =
      ⟨baseName, k, p, anns⟩ :: pageCtxsFrom baseName anns (k + 1) rest := by
  simp [pageCtxsFrom, List.enumFrom_cons]

theorem pageCtxsFrom_length (baseName : String) (anns : List Annotation)
    (k : ℕ) (pages : List PageInfo) :
    (pageCtxsFrom baseName anns k pages).length = pages.length := by
  simp [pageCtxsFrom]

theorem cocoAnnLoop_eq (anns : List Annotation) (imgId pageIdx annId : ℕ) :
    cocoAnnLoop imgId pageIdx annId anns =
      (cocoAnnsSpec annId
        ((anns.filter (fun a => decide (a.page = pageIdx))).map
          (fun a => (imgId, a))),
       annId + (anns.filter (fun a => decide (a.page = pageIdx))).length) := by
  induction anns generalizing annId with
  | nil => simp [cocoAnnLoop, cocoAnnsSpec]
  | cons a rest ih =>
    by_cases h : a.page = pageIdx
    · rw [show cocoAnnLoop imgId pageIdx annId (a :: rest) =
        (mkCocoAnn annId imgId a ::
          (cocoAnnLoop imgId pageIdx (annId + 1) rest).1,
         (cocoAnnLoop imgId pageIdx (annId + 1) rest).2) by
          simp [cocoAnnLoop, h]]
      rw [ih (annId + 1)]
      rw [List.filter_cons, if_pos (by simpa using h)]
      rw [List.map_cons, cocoAnnsSpec_cons]
      simp
      omega
    · rw [show cocoAnnLoop imgId pageIdx annId (a :: rest) =
        cocoAnnLoop imgId pageIdx annId rest by simp [cocoAnnLoop, h]]
      rw [ih annId]
      rw [List.filter_cons, if_neg (by simpa using h)]

theorem cocoPageLoop_eq (pages : List PageInfo) (baseName : String)
    (anns : List Annotation) (pageIdx imgId annId : ℕ) :
    cocoPageLoop baseName anns pageIdx imgId annId pages =
      (cocoImagesSpec imgId (pageCtxsFrom baseName anns pageIdx pages),
       cocoAnnsSpec annId
         (cocoAnnPairs imgId (pageCtxsFrom baseName anns pageIdx pages)),
       imgId + pages.length,
       annId + annCount (pageCtxsFrom baseName anns pageIdx pages)) := by
  induction pages generalizing pageIdx imgId annId with
  | nil => simp [cocoPageLoop, pageCtxsFrom, cocoImagesSpec, cocoAnnPairs,
      cocoAnnsSpec, annCount]
  | cons p rest ih =>
    rw [show cocoPageLoop baseName anns pageIdx imgId annId (p :: rest) =
      (⟨imgId, imgFileName baseName pageIdx, p.width, p.height⟩ ::
        (cocoPageLoop baseName anns (pageIdx + 1) (imgId + 1)
          (cocoAnnLoop imgId pageIdx annId anns).2 rest).1,
       (cocoAnnLoop imgId pageIdx annId anns).1 ++
        (cocoPageLoop baseName anns (pageIdx + 1) (imgId + 1)
          (cocoAnnLoop imgId pageIdx annId anns).2 rest).2.1,
       (cocoPageLoop baseName anns (pageIdx + 1) (imgId + 1)
          (cocoAnnLoop imgId pageIdx annId anns).2 rest).2.2) from rfl]
    rw [cocoAnnLoop_eq, ih]
    rw [pageCtxsFrom_cons, cocoImagesSpec_cons, cocoAnnPairs_cons,
      cocoAnnsSpec_append, annCount_cons]
    dsimp only
    refine congrArg₂ Prod.mk ?_ (congrArg₂ Prod.mk ?_ (congrArg₂ Prod.mk ?_ ?_))
    · rfl
    · simp
    · simp only [List.length_cons]
      omega
    · omega

theorem cocoDocLoop_eq (docs : List Document) (imgId annId : ℕ) :
    cocoDocLoop imgId annId docs =
      (cocoImagesSpec imgId (pageCtxs docs),
       cocoAnnsSpec annId (cocoAnnPairs imgId (pageCtxs docs)),
       imgId + (pageCtxs docs).length,
       annId + annCount (pageCtxs docs)) := by
  induction docs generalizing imgId annId with
  | nil => simp [cocoDocLoop, pageCtxs, cocoImagesSpec, cocoAnnPairs,
      cocoAnnsSpec, annCount]
  | cons d rest ih =>
    rw [show cocoDocLoop imgId annId (d :: rest) =
      ((cocoPageLoop d.baseName d.sidecar 0 imgId annId d.pages).1 ++
        (cocoDocLoop (cocoPageLoop d.baseName d.sidecar 0 imgId annId d.pages).2.2.1
          (cocoPageLoop d.baseName d.sidecar 0 imgId annId d.pages).2.2.2 rest).1,
       (cocoPageLoop d.baseName d.sidecar 0 imgId annId d.pages).2.1 ++
        (cocoDocLoop (cocoPageLoop d.baseName d.sidecar 0 imgId annId d.pages).2.2.1
          (cocoPageLoop d.baseName d.sidecar 0 imgId annId d.pages).2.2.2 rest).2.1,
       (cocoDocLoop (cocoPageLoop d.baseName d.sidecar 0 imgId annId d.pages).2.2.1
          (cocoPageLoop d.baseName d.sidecar 0 imgId annId d.pages).2.2.2 rest).2.2) from rfl]
    rw [cocoPageLoop_eq, ih]
    have hctx : pageCtxs (d :: rest) =
        pageCtxsFrom d.baseName d.sidecar 0 d.pages ++ pageCtxs rest := by
      simp [pageCtxs, List.flatMap_cons]
    have hlen : (pageCtxsFrom d.baseName d.sidecar 0 d.pages).length =
        d.pages.length := pageCtxsFrom_length _ _ _ _
    rw [hctx, cocoImagesSpec_append, cocoAnnPairs_append, cocoAnnsSpec_append,
      annCount_append, hlen, cocoAnnPairs_length]
    dsimp only
    refine congrArg₂ Prod.mk ?_ (congrArg₂ Prod.mk ?_ (congrArg₂ Prod.mk ?_ ?_))
    · rfl
    · rfl
    · simp [hlen]
      omega
    · omega

/-- A one-page demonstration document: page raster 200 by 400 pixels, one
sidecar annotation with `bbox_doc = [10, 20, 110, 70]` and label H2 (catalog
position 3). -/
def demoDoc : Document := ⟨"doc", [⟨200, 400⟩], [⟨0, ⟨10, 20, 110, 70⟩, "H2", ""⟩]⟩

theorem export_coco_eq (docs : List Document) :
    export_coco docs =
      ⟨cocoImagesSpec 1 (pageCtxs docs),
       cocoAnnsSpec 1 (cocoAnnPairs 1 (pageCtxs docs)),
       cocoCategoriesSpec⟩ := by
  unfold export_coco
  rw [cocoDocLoop_eq]
  congr 1

/-- C1: the COCO export equals the spec-side reference — image entries in
document-then-page order with IDs sequential from 1, annotation records in
the same order with their own IDs sequential from 1, each with
`bbox = [x0, y0, x1 - x0, y1 - y0]` taken directly from `bbox_doc` (no zoom
reprojection), `category_id` the label's 1-based catalog position and
`iscrowd = 0`, and one category entry per catalog label regardless of use.
In particular `bbox_doc = [10, 20, 110, 70]` yields
`bbox = [10, 20, 100, 50]`. -/
theorem export_coco_correct (docs : List Document) :
    export_coco docs =
      ⟨cocoImagesSpec 1 (pageCtxs docs),
       cocoAnnsSpec 1 (cocoAnnPairs 1 (pageCtxs docs)),
       cocoCategoriesSpec⟩ ∧
    (export_coco docs).images.map (fun e => e.id) =
      List.range' 1 (pageCtxs docs).length ∧
    (export_coco docs).annotations.map (fun e => e.id) =
      List.range' 1 (annCount (pageCtxs docs)) ∧
    (∀ e ∈ (export_coco docs).annotations, e.iscrowd = 0) ∧
    (export_coco docs).categories.length = LABEL_OPTIONS.length ∧
    (∀ name ∈ LABEL_OPTIONS,
      CocoCat.mk (LABEL_MAP name) name ∈ (export_coco docs).categories) ∧
    (∀ i, i < LABEL_OPTIONS.length →
      LABEL_MAP (LABEL_OPTIONS.getD i "") = i + 1) ∧
    (export_coco [demoDoc]).images = [⟨1, "doc_page_1.jpg", 200, 400⟩] ∧
    (export_coco [demoDoc]).annotations = [⟨1, 1, [10, 20, 100, 50], 3, 0⟩] := by
  have hmain := export_coco_eq docs
  have hcat : (export_coco docs).categories = cocoCategoriesSpec := by
    rw [hmain]
  refine ⟨hmain, ?_, ?_, ?_, ?_, ?_, ?_, ?_, ?_⟩
  · rw [hmain]
    show ((List.enumFrom 1 (pageCtxs docs)).map _).map _ = _
    rw [List.map_map]
    exact List.enumFrom_map_fst 1 (pageCtxs docs)
  · rw [hmain]
    show ((List.enumFrom 1 (cocoAnnPairs 1 (pageCtxs docs))).map _).map _ = _
    rw [List.map_map]
    rw [show (annCount (pageCtxs docs)) =
      (cocoAnnPairs 1 (pageCtxs docs)).length from
      (cocoAnnPairs_length 1 (pageCtxs docs)).symm]
    exact List.enumFrom_map_fst 1 (cocoAnnPairs 1 (pageCtxs docs))
  · rw [hmain]
    intro e he
    simp only [cocoAnnsSpec, List.mem_map] at he
    obtain ⟨p, _, hp⟩ := he
    rw [← hp]
    rfl
  · rw [hcat]
    decide
  · intro name hname
    rw [hcat]
    fin_cases hname <;> decide
  · intro i hi
    have hi6 : i < 6 := by simpa [LABEL_OPTIONS] using hi
    interval_cases i <;> decide
  · rw [export_coco_eq [demoDoc]]
    decide
  · rw [export_coco_eq [demoDoc]]
    simp only [pageCtxs, demoDoc, pageCtxsFrom, cocoAnnPairs, cocoAnnsSpec,
      mkCocoAnn, List.flatMap_cons, List.flatMap_nil, List.enumFrom,
      List.map_cons, List.map_nil, List.filter, List.append_nil]
    norm_num
    decide

/-! ## YOLO exporter (C2)

`export_yolo` (src/main.py lines 359-387): per rendered page, a sibling
`.txt` label file with one line per annotation of that page:
`{class} {xc:.6f} {yc:.6f} {w:.6f} {h:.6f}` with `class = LABEL_MAP - 1` and
all four values normalised by the page pixmap's width/height.  Python's
`:.6f` float formatting is modelled on `ℚ` as round-half-even at the sixth
decimal followed by sign, integer part, a dot and a six-digit zero-padded
fraction. -/

/-- Round half to even, the rounding of Python's float formatting. -/
def roundHalfEven (q : ℚ) : ℤ :=
  if q - ⌊q⌋ < 1 / 2 then ⌊q⌋
  else if 1 / 2 < q - ⌊q⌋ then ⌊q⌋ + 1
  else if ⌊q⌋ % 2 = 0 then ⌊q⌋ else ⌊q⌋ + 1

/-- The decimal digit character of `n % 10`. -/
def digitChar (n : ℕ) : Char :=
  ['0', '1', '2', '3', '4', '5', '6', '7', '8', '9'].getD (n % 10) '0'

/-- The six zero-padded decimal digits of `m` (for `m` below 10^6, its
six-digit decimal expansion). -/
def frac6 (m : ℕ) : String :=
  String.mk [digitChar (m / 100000), digitChar (m / 10000),
    digitChar (m / 1000), digitChar (m / 100), digitChar (m / 10), digitChar m]

/-- The sign and integer part of `q` as formatted by `:.6f`. -/
def fmt6int (q : ℚ) : String :=
  (if roundHalfEven (q * 1000000) < 0 then "-" else "") ++
    toString ((roundHalfEven (q * 1000000)).natAbs / 1000000)

/-- The six-decimal fraction value of `q` as formatted by `:.6f`. -/
def fmt6frac (q : ℚ) : ℕ := (roundHalfEven (q * 1000000)).natAbs % 1000000

/-- Python's `f"{q:.6f}"` on the rational model. -/
def fmt6 (q : ℚ) : String := fmt6int q ++ "." ++ frac6 (fmt6frac q)

/-- One line written by `export_yolo` (src/main.py lines 377-386), the loop
locals `w = x1 - x0`, `h = y1 - y0`, `xc = x0 + w/2`, `yc = y0 + h/2` and
the normalisations by `pix.width`/`pix.height` inlined (the trailing newline
of `lf.write` is left to the file assembly). -/
def yoloLine (pw ph : ℕ) (a : Annotation) : String :=
  toString (LABEL_MAP a.label - 1) ++ " " ++
  fmt6 ((a.bbox.x0 + (a.bbox.x1 - a.bbox.x0) / 2) / pw) ++ " " ++
  fmt6 ((a.bbox.y0 + (a.bbox.y1 - a.bbox.y0) / 2) / ph) ++ " " ++
  fmt6 ((a.bbox.x1 - a.bbox.x0) / pw) ++ " " ++
  fmt6 ((a.bbox.y1 - a.bbox.y0) / ph)

/-- The `for ann in annotations` loop of `export_yolo`
(src/main.py lines 375-386): one line per annotation whose `page` equals the
current page index, in sidecar order. -/
def yoloLines (pw ph pageIdx : ℕ) (anns : List Annotation) : List String :=
  match anns with
  | [] => []
  | a :: rest =>
    if a.page = pageIdx then yoloLine pw ph a :: yoloLines pw ph pageIdx rest
    else yoloLines pw ph pageIdx rest

/-- The label file name `{base}_page_{pageIdx+1}.txt`
(src/main.py line 373: the image name with `.jpg` replaced by `.txt`). -/
def labelFileName (baseName : String) (pageIdx : ℕ) : String :=
  baseName ++ "_page_" ++ toString (pageIdx + 1) ++ ".txt"

/-- `export_yolo` (src/main.py lines 359-387): for every document and every
page, the sibling label file (name and its list of lines). -/
def export_yolo (docs : List Document) : List (String × List String) :=
  docs.flatMap (fun d => (List.enum d.pages).map (fun p =>
    (labelFileName d.baseName p.1, yoloLines p.2.width p.2.height p.1 d.sidecar)))

/-- Spec: the four normalised values of one annotation against a page of
`pw` by `ph` pixels — centre x, centre y, width, height of `bbox_doc`, each
divided by the page's pixel width or height. -/
def yoloVals (pw ph : ℕ) (a : Annotation) : List ℚ :=
  [((a.bbox.x0 + a.bbox.x1) / 2) / (pw : ℚ),
   ((a.bbox.y0 + a.bbox.y1) / 2) / (ph : ℚ),
   (a.bbox.x1 - a.bbox.x0) / (pw : ℚ),
   (a.bbox.y1 - a.bbox.y0) / (ph : ℚ)]

/-- Spec: one label line — the class index (catalog ID minus 1) followed by
the four normalised values, each formatted to six decimals. -/
def yoloLineSpec (pw ph : ℕ) (a : Annotation) : String :=
  toString (LABEL_MAP a.label - 1) ++
    (yoloVals pw ph a).foldr (fun v acc => " " ++ fmt6 v ++ acc) ""

/-- Spec: the label file content of one page — exactly one line per sidecar
annotation whose `page` field equals the page's index, in order. -/
def yoloPageSpec (pw ph pageIdx : ℕ) (anns : List Annotation) : List String :=
  (anns.filter (fun a => decide (a.page = pageIdx))).map (yoloLineSpec pw ph)

theorem yoloLine_eq_spec (pw ph : ℕ) (a : Annotation) :
    yoloLine pw ph a = yoloLineSpec pw ph a := by
  unfold yoloLine yoloLineSpec yoloVals
  rw [show a.bbox.x0 + (a.bbox.x1 - a.bbox.x0) / 2 =
    (a.bbox.x0 + a.bbox.x1) / 2 from by ring]
  rw [show a.bbox.y0 + (a.bbox.y1 - a.bbox.y0) / 2 =
    (a.bbox.y0 + a.bbox.y1) / 2 from by ring]
  simp [String.append_assoc]

theorem yoloLines_eq (pw ph pageIdx : ℕ) (anns : List Annotation) :
    yoloLines pw ph pageIdx anns = yoloPageSpec pw ph pageIdx anns := by
  induction anns with
  | nil => rfl
  | cons a rest ih =>
    by_cases h : a.page = pageIdx
    · simp [yoloLines, yoloPageSpec, List.filter_cons, h, yoloLine_eq_spec,
        ih]
    · simp [yoloLines, yoloPageSpec, List.filter_cons, h] at ih ⊢
      exact ih

/-- The demonstration annotation `bbox_doc = [10, 20, 110, 70]`, label H2. -/
def demoAnn : Annotation := ⟨0, ⟨10, 20, 110, 70⟩, "H2", ""⟩

/-- C2: the YOLO export writes, for each rendered page, a sibling `.txt`
label file with exactly one line per annotation of that page, of the form
`{classIndex} {xc} {yc} {w} {h}` with `classIndex` the catalog ID minus 1
and the four values the centre/size of `bbox_doc` normalised by the page's
pixel dimensions, each formatted with exactly six decimal digits; for
`bbox_doc = [10, 20, 110, 70]` against a 200 by 400 page the four values
lie in `[0, 1]`. -/
theorem export_yolo_correct (docs : List Document) :
    export_yolo docs =
      docs.flatMap (fun d => (List.enum d.pages).map (fun p =>
        (labelFileName d.baseName p.1,
         yoloPageSpec p.2.width p.2.height p.1 d.sidecar))) ∧
    (∀ q : ℚ, fmt6 q = fmt6int q ++ "." ++ frac6 (fmt6frac q) ∧
      (frac6 (fmt6frac q)).length = 6 ∧
      ∀ c ∈ (frac6 (fmt6frac q)).data, c.isDigit = true) ∧
    LABEL_MAP "H2" - 1 = 2 ∧
    (∀ v ∈ yoloVals 200 400 demoAnn, 0 ≤ v ∧ v ≤ 1) := by
  refine ⟨?_, ?_, by decide, ?_⟩
  · simp only [export_yolo, yoloLines_eq]
  · intro q
    refine ⟨rfl, rfl, ?_⟩
    intro c hc
    have hd : ∀ n : ℕ, (digitChar n).isDigit = true := by
      intro n
      have h10 : n % 10 < 10 := Nat.mod_lt _ (by norm_num)
      unfold digitChar
      set k := n % 10 with hk
      interval_cases k <;> decide
    simp only [frac6] at hc
    fin_cases hc <;> exact hd _
  · intro v hv
    fin_cases hv <;> constructor <;> norm_num [demoAnn]

/-! ## Text Extractor (C6)

`extract_text_precise` (src/main.py lines 230-271).  The page's character
geometry is the flattened sequence of characters of `page.get_text("rawdict")`
with their bounding boxes.  Python's stable `list.sort` with key
`(round(y, 1), x)` is modelled by a stable insertion sort with the strict
lexicographic key comparison (any stable sort by the same key produces the
same list); `round(y, 1)` at one decimal compares tenths rounded half to
even. -/

/-- One character of the page geometry: glyph and bounding box. -/
structure CharBox where
  c : Char
  x0 : ℚ
  y0 : ℚ
  x1 : ℚ
  y1 : ℚ

/-- A collected character: glyph and the top-left corner kept at
src/main.py line 240 (`{"char": c, "x": cx0, "y": cy0}`). -/
structure CPos where
  c : Char
  x : ℚ
  y : ℚ
deriving DecidableEq

/-- Python `round(y, 1)` as a sort key: tenths, rounded half to even (the
constant factor 10 preserves the ordering of the rounded values). -/
def pyRound1 (y : ℚ) : ℤ := roundHalfEven (10 * y)

/-- Strict ordering of the sort keys `(round(y, 1), x)` of
src/main.py line 246, lexicographic. -/
def keyLT (a b : CPos) : Bool :=
  decide (pyRound1 a.y < pyRound1 b.y ∨
    (pyRound1 a.y = pyRound1 b.y ∧ a.x < b.x))

/-- Insert `a` into `l` after every element strictly below it, before the
first element not strictly below it (stability: an element inserted later
never jumps before an equal-key element already present). -/
def stableInsert (lt' : CPos → CPos → Bool) (a : CPos) : List CPos → List CPos
  | [] => [a]
  | b :: bs => if lt' b a then b :: stableInsert lt' a bs else a :: b :: bs

/-- Stable ascending sort by the strict comparison `lt'`, the model of
Python's stable `list.sort(key=...)` (src/main.py line 246). -/
def pySort (lt' : CPos → CPos → Bool) : List CPos → List CPos
  | [] => []
  | a :: rest => stableInsert lt' a (pySort lt' rest)

/-- The duplicate test of src/main.py line 252: same glyph as the last kept
character and within 1.5 units of it on both axes (strictly). -/
def near (l c : CPos) : Bool :=
  decide (l.c = c.c ∧ |c.x - l.x| < 3 / 2 ∧ |c.y - l.y| < 3 / 2)

/-- The deduplication loop of src/main.py lines 249-255, with the
`last_x, last_y, last_char = None, None, None` initial state as `none` (the
comparison with `None` is false, so the first character is always kept). -/
def dedupeLoop : Option CPos → List CPos → List CPos
  | _, [] => []
  | none, c :: rest => c :: dedupeLoop (some c) rest
  | some l, c :: rest =>
    if near l c then dedupeLoop (some l) rest
    else c :: dedupeLoop (some c) rest

/-- The line-grouping loop of src/main.py lines 257-269: `cur` is
`current_line`, `curY` the running line's anchor `current_y`; on a vertical
gap above 3 the current line is flushed and restarted; at the end the
current line is flushed if nonempty. -/
def groupLoop : List CPos → ℚ → List CPos → List (List CPos)
  | cur, _, [] => if cur.isEmpty then [] else [cur]
  | cur, curY, c :: rest =>
    if |c.y - curY| > 3 then cur :: groupLoop [c] c.y rest
    else groupLoop (cur ++ [c]) curY rest

/-- The string of one grouped line: its characters concatenated in order
(src/main.py line 263). -/
def lineStr (l : List CPos) : String := String.mk (l.map (fun ch => ch.c))

/-- The collection step of src/main.py lines 233-240: every character whose
box strictly overlaps the query rectangle on both axes, keeping glyph and
top-left corner. -/
def collect (r : Rect) (chars : List CharBox) : List CPos :=
  (chars.filter (fun ch => decide (ch.x1 > r.x0 ∧ ch.x0 < r.x1 ∧
    ch.y1 > r.y0 ∧ ch.y0 < r.y1))).map (fun ch => ⟨ch.c, ch.x0, ch.y0⟩)

/-- `extract_text_precise` (src/main.py lines 230-271): collect, early
return on no hit, sort, deduplicate, group into lines (anchored at the
first kept character's `y`), join with newlines and strip. -/
def extract_text_precise (chars : List CharBox) (r : Rect) : String :=
  match collect r chars with
  | [] => ""
  | c0 :: rest =>
    match dedupeLoop none (pySort keyLT (c0 :: rest)) with
    | [] => ""
    | f0 :: frest =>
      pyStrip (String.intercalate "\n"
        ((groupLoop [] f0.y (f0 :: frest)).map lineStr))

/-- Spec step 2: sort the collected characters by `(round(y, 1), x)`
ascending. -/
def sortChars (l : List CPos) : List CPos := pySort keyLT l

/-- Spec step 3 (tail): drop each character equal to the previously kept
glyph and within 1.5 units of it on both axes. -/
def dedupeAfter (last : CPos) : List CPos → List CPos
  | [] => []
  | c :: rest =>
    if near last c then dedupeAfter last rest else c :: dedupeAfter c rest

/-- Spec step 3: the first character is kept; later ones are dropped when
they duplicate the previously kept one. -/
def dedupeChars : List CPos → List CPos
  | [] => []
  | c :: rest => c :: dedupeAfter c rest

/-- Spec step 4 (tail): extend the running line while the vertical gap from
its anchor stays within 3 units; start a new line (re-anchored) otherwise. -/
def groupFrom : ℚ → List CPos → List CPos → List (List CPos)
  | _, cur, [] => [cur]
  | anchor, cur, c :: rest =>
    if |c.y - anchor| > 3 then cur :: groupFrom c.y [c] rest
    else groupFrom anchor (cur ++ [c]) rest

/-- Spec step 4: lines of the deduplicated sequence, the first line anchored
at the first character's `y`. -/
def groupLines : List CPos → List (List CPos)
  | [] => []
  | c :: rest => groupFrom c.y [c] rest

/-- Spec step 5: join the lines with newlines and trim the result. -/
def renderLines (ls : List (List CPos)) : String :=
  pyStrip (String.intercalate "\n" (ls.map lineStr))

/-- Spec: the five-step reference text extraction. -/
def extractSpec (chars : List CharBox) (r : Rect) : String :=
  renderLines (groupLines (dedupeChars (sortChars (collect r chars))))

theorem stableInsert_length (lt' : CPos → CPos → Bool) (a : CPos)
    (l : List CPos) : (stableInsert lt' a l).length = l.length + 1 := by
  induction l with
  | nil => rfl
  | cons b bs ih =>
    unfold stableInsert
    split
    · simp [ih]
    · simp

theorem pySort_length (lt' : CPos → CPos → Bool) (l : List CPos) :
    (pySort lt' l).length = l.length := by
  induction l with
  | nil => rfl
  | cons a rest ih =>
    unfold pySort
    rw [stableInsert_length, ih]
    rfl

theorem dedupeLoop_some (l : CPos) (xs : List CPos) :
    dedupeLoop (some l) xs = dedupeAfter l xs := by
  induction xs generalizing l with
  | nil => rfl
  | cons c rest ih =>
    unfold dedupeLoop dedupeAfter
    split
    · exact ih l
    · rw [ih c]

theorem groupLoop_eq (xs : List CPos) (cur : List CPos) (y : ℚ)
    (h : cur ≠ []) : groupLoop cur y xs = groupFrom y cur xs := by
  induction xs generalizing cur y with
  | nil =>
    unfold groupLoop groupFrom
    rw [if_neg (by simpa using h)]
  | cons c rest ih =>
    unfold groupLoop groupFrom
    split
    · rw [ih [c] c.y (by simp)]
    · rw [ih (cur ++ [c]) y (by simp)]

theorem groupLoop_start (c : CPos) (xs : List CPos) :
    groupLoop [] c.y (c :: xs) = groupFrom c.y [c] xs := by
  unfold groupLoop
  rw [if_neg (by simp)]
  rw [List.nil_append]
  exact groupLoop_eq xs [c] c.y (by simp)

/-- C6: the source text extraction equals the five-step reference algorithm
(collect strictly overlapping characters, sort by `(round(y, 1), x)`,
deduplicate near-identical adjacent glyphs, group into lines at vertical
gaps above 3 units, join with newlines and trim), and it returns the empty
string when no character overlaps the query rectangle. -/
theorem extract_text_precise_spec (chars : List CharBox) (r : Rect) :
    extract_text_precise chars r = extractSpec chars r ∧
    (collect r chars = [] → extract_text_precise chars r = "") := by
  constructor
  · unfold extract_text_precise extractSpec
    rcases hcol : collect r chars with _ | ⟨c0, rest⟩
    · rfl
    · have hlen : (pySort keyLT (c0 :: rest)).length = rest.length + 1 := by
        rw [pySort_length]
        rfl
      rcases hsort : pySort keyLT (c0 :: rest) with _ | ⟨s0, srest⟩
      · rw [hsort] at hlen
        simp at hlen
      · have hdc : dedupeLoop none (pySort keyLT (c0 :: rest)) =
            s0 :: dedupeAfter s0 srest := by
          rw [hsort]
          show s0 :: dedupeLoop (some s0) srest = _
          rw [dedupeLoop_some]
        show (match dedupeLoop none (pySort keyLT (c0 :: rest)) with
          | [] => ""
          | f0 :: frest =>
            pyStrip (String.intercalate "\n"
              ((groupLoop [] f0.y (f0 :: frest)).map lineStr))) =
          renderLines (groupLines (dedupeChars (sortChars (c0 :: rest))))
        rw [hdc]
        show pyStrip (String.intercalate "\n"
            ((groupLoop [] s0.y (s0 :: dedupeAfter s0 srest)).map lineStr)) = _
        rw [groupLoop_start]
        unfold sortChars
        rw [hsort]
        rfl
  · intro h
    unfold extract_text_precise
    rw [h]

/-- Witness for C3: a 30 by 40 pixel drag at zoom 2 commits one annotation
with the pixel rectangle divided by the zoom. -/
theorem on_mouse_up_commit_spec_witness :
    on_mouse_up_drawing 1 2 "H1" [] 0 0 30 40 =
      [] ++ [⟨1, ⟨0 / 2, 0 / 2, 30 / 2, 40 / 2⟩, "H1", ""⟩] :=
  (on_mouse_up_commit_spec 1 2 "H1" [] 0 0 30 40).1 (by norm_num)

/-- Witness for C1: the third catalog label carries category ID 3. -/
theorem export_coco_correct_witness :
    LABEL_MAP (LABEL_OPTIONS.getD 2 "") = 2 + 1 :=
  (export_coco_correct []).2.2.2.2.2.2.1 2 (by decide)

/-- Witness for C2: the normalised width of the demonstration annotation
against a 200 by 400 page lies in the unit interval. -/
theorem export_yolo_correct_witness :
    0 ≤ (demoAnn.bbox.x1 - demoAnn.bbox.x0) / ((200 : ℕ) : ℚ) ∧
    (demoAnn.bbox.x1 - demoAnn.bbox.x0) / ((200 : ℕ) : ℚ) ≤ 1 :=
  (export_yolo_correct []).2.2.2 _ (by simp [yoloVals])

/-- Witness for C6: with no characters on the page, extraction returns the
empty string. -/
theorem extract_text_precise_spec_witness :
    extract_text_precise [] ⟨0, 0, 1, 1⟩ = "" :=
  (extract_text_precise_spec [] ⟨0, 0, 1, 1⟩).2 rfl
